import Mathlib

/-!
Shallow embedding of the tournament clock engine of the PokerSocketServer
repository (src/server.js, second iteration, lines 125-456, which is the
most complete variant; src/unnamed/part_000 holds the earlier elapsed-basis
variant whose calculator differs only in the clamp and in the finished
level number).  Times are modelled in integer milliseconds, exactly the
values produced by JavaScript Date arithmetic on the inputs the claims
use.  A start-time string is modelled by its parse status: `absent` is a
falsy string (empty/undefined), `unparseable` is a non-empty string whose
Date parse is NaN, `at t` is a string parsing to epoch milliseconds `t`.
NaN propagation is modelled by `Option Int` for the elapsed quantity: every
JavaScript `<` comparison against NaN is false, which `nanLt` reproduces.
-/

/-- Parse status of a start-time string handed to calculateState. -/
inductive TimeFact where
  | absent
  | unparseable
  | at (ms : Int)
deriving DecidableEq, Repr

/-- One blind level, as stored in the tournament payloads. -/
structure Level where
  levelNumber : Int
  durationSeconds : Int
deriving DecidableEq, Repr

/-- Output shape of calculateState in both variants. -/
structure DerivedState where
  finished : Bool
  currentLevel : Int
  timeRemaining : Int
deriving DecidableEq, Repr

/-- JavaScript Math.ceil of d / 1000 for an integer number d of
milliseconds, written as the negated floor of the negation. -/
def jsCeilDiv1000 (d : Int) : Int := -((-d) / 1000)

/-- JavaScript comparison elapsedMs < levelEndMs where elapsedMs may be
NaN (modelled by none): every comparison against NaN is false. -/
def nanLt : Option Int → Int → Bool
  | some a, b => decide (a < b)
  | none, _ => false

/-- The sort at server.js:196, levels.sort by levelNumber ascending; the
JavaScript runtime sort is stable, which stable insertion sort
reproduces. -/
def sortLevels (ls : List Level) : List Level :=
  ls.insertionSort (fun a b => a.levelNumber ≤ b.levelNumber)

/-- The level walk of calculateState (server.js:198-213): accumulate the
level start offset; the first level whose end exceeds the elapsed time is
returned with its ceiling-rounded remaining seconds; otherwise none.  The
part_000 variant writes the same walk with an index and a found flag and
computes the identical result. -/
def walkLevels (elapsed : Option Int) (levelStartMs : Int) : List Level → Option (Int × Int)
  | [] => none
  | lvl :: rest =>
      let durationMs := lvl.durationSeconds * 1000
      let levelEndMs := levelStartMs + durationMs
      if nanLt elapsed levelEndMs then
        some (lvl.levelNumber, jsCeilDiv1000 (levelEndMs - elapsed.getD 0))
      else
        walkLevels elapsed levelEndMs rest

/-- Elapsed milliseconds in the server.js variant (line 192): clamped to
be non-negative; NaN (unparseable start) stays NaN. -/
def elapsedOf : TimeFact → Int → Option Int
  | TimeFact.at t, now => some (max 0 (now - t))
  | _, _ => none

/-- Elapsed milliseconds in the part_000 variant (line 53): no clamp. -/
def elapsedOfV0 : TimeFact → Int → Option Int
  | TimeFact.at t, now => some (now - t)
  | _, _ => none

/-- calculateState of server.js lines 187-216.  The guard returns null
when the start string is falsy or the level array is falsy or empty; on
exhaustion of the walk the finished record carries sortedLevels.length as
the current level. -/
def calculateState (fact : TimeFact) (now : Int) (levels : Option (List Level)) :
    Option DerivedState :=
  if fact = TimeFact.absent ∨ levels = none ∨ levels = some [] then none
  else
    match walkLevels (elapsedOf fact now) 0 (sortLevels (levels.getD [])) with
    | some (n, r) => some { finished := false, currentLevel := n, timeRemaining := r }
    | none =>
        some { finished := true,
               currentLevel := Int.ofNat (sortLevels (levels.getD [])).length,
               timeRemaining := 0 }

/-- calculateState of src/unnamed/part_000 lines 44-89: same guard and
walk, but the elapsed time is not clamped and the finished record carries
sortedLevels.length + 1 as the current level. -/
def calculateStateV0 (fact : TimeFact) (now : Int) (levels : Option (List Level)) :
    Option DerivedState :=
  if fact = TimeFact.absent ∨ levels = none ∨ levels = some [] then none
  else
    match walkLevels (elapsedOfV0 fact now) 0 (sortLevels (levels.getD [])) with
    | some (n, r) => some { finished := false, currentLevel := n, timeRemaining := r }
    | none =>
        some { finished := true,
               currentLevel := Int.ofNat (sortLevels (levels.getD [])).length + 1,
               timeRemaining := 0 }

/-- State of the caller's levels array after a call to calculateState:
Array.prototype.sort at server.js:196 reorders the array in place, so once
the guard is passed the caller's array holds the sorted order; when the
guard returns early the sort never runs and the array is untouched. -/
def calculateStateLevelsAfter (fact : TimeFact) (levels : Option (List Level)) :
    Option (List Level) :=
  if fact = TimeFact.absent ∨ levels = none ∨ levels = some [] then levels
  else some (sortLevels (levels.getD []))

/-!
The registry, the periodic tasks and the command surface.  activeTournaments
is the in-memory Map of server.js:182, modelled as an association list with
last-write-wins set.  setInterval handles are numbered by a counter; the set
of live intervals is the list liveTimers of pairs (handle, tournamentId); a
clearInterval removes the handle, and a handle that has been cleared is
never invoked again (fireTick guards on membership).  JavaScript mutates the
record object captured by the interval closure in place; here the tick
returns the updated captured record explicitly.
-/

/-- One in-memory active-tournament record (the value stored in the
activeTournaments Map of server.js). -/
structure ActiveRec where
  id : String
  startTime : TimeFact
  levels : Option (List Level)
  cachedCurrentLevel : Int
  timerInterval : Option Nat
deriving DecidableEq, Repr

/-- Get on a JavaScript Map modelled as an association list. -/
def mapGet {α : Type} (m : List (String × α)) (k : String) : Option α :=
  match m with
  | [] => none
  | (k₁, v) :: rest => if k₁ = k then some v else mapGet rest k

/-- Set on a JavaScript Map: replaces the entry for the key if present. -/
def mapSet {α : Type} (m : List (String × α)) (k : String) (v : α) : List (String × α) :=
  match m with
  | [] => [(k, v)]
  | (k₁, v₁) :: rest => if k₁ = k then (k, v) :: rest else (k₁, v₁) :: mapSet rest k v

/-- Delete on a JavaScript Map. -/
def mapDelete {α : Type} (m : List (String × α)) (k : String) : List (String × α) :=
  m.filter (fun p => p.1 ≠ k)

/-- Has on a JavaScript Map. -/
def mapHas {α : Type} (m : List (String × α)) (k : String) : Bool :=
  (mapGet m k).isSome

/-- Whole-process mutable state touched by the clock engine: the registry,
the set of live interval timers and the handle counter. -/
structure SchedState where
  activeTournaments : List (String × ActiveRec)
  liveTimers : List (Nat × String)
  nextHandle : Nat
deriving DecidableEq, Repr

/-- The empty state at process start. -/
def initialState : SchedState := { activeTournaments := [], liveTimers := [], nextHandle := 0 }

/-- clearInterval on an optional stored handle. -/
def clearIntervalOpt (h : Option Nat) (timers : List (Nat × String)) : List (Nat × String) :=
  match h with
  | none => timers
  | some h => timers.filter (fun p => p.1 ≠ h)

/-- Number of live periodic tasks currently installed for a tournament
identifier. -/
def liveTimersFor (tid : String) (st : SchedState) : Nat :=
  (st.liveTimers.filter (fun p => p.2 = tid)).length

/-- The room name helper of server.js:184. -/
def tournamentRoom (tid : String) : String := "tournament:" ++ tid

/-- Pre-computed timing facts C# can inject into a start webhook
(the data._internalState object of server.js:328-336). -/
structure InternalState where
  startTime : TimeFact
  levels : Option (List Level)
  currentLevel : Int
deriving DecidableEq, Repr

/-- The data member of a webhook body; absent when the request carried no
data field at all (reading .type off it then throws). -/
structure ControlData where
  type : Option String
  internalState : Option InternalState
deriving DecidableEq, Repr

/-- Payloads carried by the emitted events, restricted to the shapes the
engine produces. -/
inductive Payload where
  | finishCtl
  | updateLevelCtl (level : Int)
  | timerSync (currentLevel : Int) (timeLeft : Int) (status : String)
  | raw (data : Option ControlData)
deriving DecidableEq, Repr

/-- Patch bodies sent to the external C# backend. -/
inductive Patch where
  | status (s : String)
  | level (n : Int)
deriving DecidableEq, Repr

/-- Observable side effects of one handler or tick run: a room broadcast,
an emit to the joining socket only, a fire-and-forget PATCH to the backend,
or the scheduled fallback fetch of the webhook start branch. -/
inductive Effect where
  | emitRoom (room : String) (event : String) (payload : Payload)
  | emitSelf (event : String) (payload : Payload)
  | joinRoom (room : String)
  | patchExternal (tid : String) (patch : Patch)
  | fetchApi (tid : String)
deriving DecidableEq, Repr

/-- runTournamentLoop of server.js lines 218-285 (handle management only;
the interval callback body is tickBody below).  Looks up the record, bails
when absent, clears a previously stored interval handle of that record,
installs a fresh interval and stores its handle back in the record. -/
def runTournamentLoop (tid : String) (st : SchedState) : SchedState :=
  match mapGet st.activeTournaments tid with
  | none => st
  | some active =>
      let timers := clearIntervalOpt active.timerInterval st.liveTimers
      let h := st.nextHandle
      let active := { active with timerInterval := some h }
      { activeTournaments := mapSet st.activeTournaments tid active,
        liveTimers := timers ++ [(h, tid)],
        nextHandle := h + 1 }

/-- One execution of the setInterval callback installed by
runTournamentLoop (server.js lines 227-281), given the captured record and
the wall clock.  The callback never consults the registry: it recomputes
from the captured record; on finished it clears the captured handle,
deletes the registry entry for the loop identifier and notifies; on a level
change it updates the captured cachedCurrentLevel and notifies; otherwise
it emits the heartbeat.  Returns the effects, the new process state and the
captured record after its in-place mutations. -/
def tickBody (tid : String) (active : ActiveRec) (now : Int) (st : SchedState) :
    List Effect × SchedState × ActiveRec :=
  match calculateState active.startTime now active.levels with
  | none => ([], st, active)
  | some state =>
      let room := tournamentRoom tid
      if state.finished then
        ([Effect.emitRoom room "tournament-control" Payload.finishCtl,
          Effect.patchExternal tid (Patch.status "Completed")],
         { st with
            liveTimers := clearIntervalOpt active.timerInterval st.liveTimers,
            activeTournaments := mapDelete st.activeTournaments tid },
         active)
      else
        let changed := state.currentLevel ≠ active.cachedCurrentLevel
        let active₁ :=
          if changed then { active with cachedCurrentLevel := state.currentLevel } else active
        let lvlEffs :=
          if changed then
            [Effect.emitRoom room "tournament-control" (Payload.updateLevelCtl state.currentLevel),
             Effect.patchExternal tid (Patch.level state.currentLevel)]
          else []
        (lvlEffs ++
          [Effect.emitRoom room "timer-sync"
            (Payload.timerSync state.currentLevel state.timeRemaining "Running")],
         st, active₁)

/-- Invocation of a periodic task by the runtime: the callback of handle h
runs only while h is still a live interval; a cleared handle never fires
again. -/
def fireTick (h : Nat) (tid : String) (active : ActiveRec) (now : Int) (st : SchedState) :
    List Effect × SchedState × ActiveRec :=
  if (h, tid) ∈ st.liveTimers then tickBody tid active now st else ([], st, active)

/-- Truthiness of an optional JavaScript string field: undefined and the
empty string are falsy. -/
def truthyStr : Option String → Bool
  | none => false
  | some s => s ≠ ""

/-- Body of a POST to /api/webhook/emit. -/
structure WebhookBody where
  tournamentId : Option String
  event : Option String
  data : Option ControlData
deriving DecidableEq, Repr

/-- Result of running the webhook handler: early 400 rejection with no
effects, normal 200 completion, or a JavaScript TypeError escaping the
handler (effects produced before the throw are kept; no response is sent
on that path). -/
inductive WebhookOutcome where
  | badRequest
  | ok (effects : List Effect) (st : SchedState)
  | thrown (effects : List Effect) (st : SchedState)
deriving DecidableEq, Repr

/-- State carried by a webhook outcome, when the handler did not reject
the request. -/
def outcomeState : WebhookOutcome → Option SchedState
  | WebhookOutcome.badRequest => none
  | WebhookOutcome.ok _ st => some st
  | WebhookOutcome.thrown _ st => some st

/-- The start/resume interception of server.js lines 326-341 when C# has
injected _internalState: a fresh record with a null interval handle
replaces whatever record the registry held, and the loop is restarted. -/
def webhookStartInternal (tid : String) (internal : InternalState) (st : SchedState) :
    SchedState :=
  let active : ActiveRec :=
    { id := tid,
      startTime := internal.startTime,
      levels := some (internal.levels.getD []),
      cachedCurrentLevel := internal.currentLevel,
      timerInterval := none }
  runTournamentLoop tid { st with activeTournaments := mapSet st.activeTournaments tid active }

/-- The webhook handler of server.js lines 308-371.  Requests with a falsy
tournamentId or event are rejected with 400 before any broadcast or state
change.  Otherwise the event is broadcast to the tournament room first;
then tournament-control events are intercepted: reading data.type throws a
TypeError when the data member is absent; start/resume with injected
internal state replaces the record and restarts the loop; start/resume
without it schedules the fallback API fetch when no record exists;
pause/finish clears the stored interval and deletes the record when both
exist. -/
def webhookEmit (body : WebhookBody) (st : SchedState) : WebhookOutcome :=
  if ¬ (truthyStr body.tournamentId ∧ truthyStr body.event) then WebhookOutcome.badRequest
  else
    let tid := body.tournamentId.getD ""
    let event := body.event.getD ""
    let effs := [Effect.emitRoom (tournamentRoom tid) event (Payload.raw body.data)]
    if event = "tournament-control" then
      match body.data with
      | none => WebhookOutcome.thrown effs st
      | some d =>
          if d.type = some "start" ∨ d.type = some "resume" then
            match d.internalState with
            | some internal => WebhookOutcome.ok effs (webhookStartInternal tid internal st)
            | none =>
                if ¬ mapHas st.activeTournaments tid then
                  WebhookOutcome.ok (effs ++ [Effect.fetchApi tid]) st
                else WebhookOutcome.ok effs st
          else if d.type = some "pause" ∨ d.type = some "finish" then
            match mapGet st.activeTournaments tid with
            | some active =>
                match active.timerInterval with
                | some h =>
                    WebhookOutcome.ok effs
                      { st with
                          liveTimers := clearIntervalOpt (some h) st.liveTimers,
                          activeTournaments := mapDelete st.activeTournaments tid }
                | none => WebhookOutcome.ok effs st
            | none => WebhookOutcome.ok effs st
          else WebhookOutcome.ok effs st
    else WebhookOutcome.ok effs st

/-- The durable tournament record fetched from the C# backend. -/
structure Tournament where
  id : String
  name : String
  startTime : TimeFact
  status : String
  currentLevel : Int
  levels : Option (List Level)
deriving DecidableEq, Repr

/-- The recovery gate inside the join-tournament handler (server.js lines
412-424): revive only when the fetch succeeded, the durable startTime is
truthy and the durable status is exactly the string Running (strict ===
comparison); the seeded record trusts the durable current level. -/
def recoverActive (fetched : Option Tournament) : Option ActiveRec :=
  match fetched with
  | none => none
  | some t =>
      if t.startTime ≠ TimeFact.absent ∧ t.status = "Running" then
        some { id := t.id,
               startTime := t.startTime,
               levels := some (t.levels.getD []),
               cachedCurrentLevel := t.currentLevel,
               timerInterval := none }
      else none

/-- Sync emit at the end of the join handler (server.js lines 430-439):
emitted to the joining socket only when a record is at hand and its state
computes and is not finished. -/
def joinSyncEffects (active : ActiveRec) (now : Int) : List Effect :=
  match calculateState active.startTime now active.levels with
  | some cs =>
      if cs.finished = false then
        [Effect.emitSelf "timer-sync"
          (Payload.timerSync cs.currentLevel cs.timeRemaining "Running")]
      else []
  | none => []

/-- The join-tournament handler of server.js lines 401-440.  A falsy
tournament identifier returns immediately; otherwise the socket joins the
room; when the registry has no record, the fetched durable record (the
await result, passed here as an argument) is run through the recovery
gate, and on success the record is seeded and the loop started; finally
the joining socket is synced from whichever record is at hand. -/
def joinTournament (tid : Option String) (fetched : Option Tournament) (now : Int)
    (st : SchedState) : SchedState × List Effect :=
  if ¬ truthyStr tid then (st, [])
  else
    let tid := tid.getD ""
    let joinEff := [Effect.joinRoom (tournamentRoom tid)]
    match mapGet st.activeTournaments tid with
    | some active => (st, joinEff ++ joinSyncEffects active now)
    | none =>
        match recoverActive fetched with
        | some rec =>
            let st₁ :=
              runTournamentLoop tid
                { st with activeTournaments := mapSet st.activeTournaments tid rec }
            (st₁, joinEff ++ joinSyncEffects rec now)
        | none => (st, joinEff)

/-!
Helper lemmas shared by the claim theorems.
-/

/-- Ascending order on levels used by the defensive sort. -/
def levelLE (a b : Level) : Prop := a.levelNumber ≤ b.levelNumber

instance : DecidableRel levelLE :=
  fun a b => inferInstanceAs (Decidable (a.levelNumber ≤ b.levelNumber))

/-- Total scheduled duration of a level list in milliseconds. -/
def totalDurationMs (ls : List Level) : Int :=
  (ls.map (fun l => l.durationSeconds * 1000)).sum

theorem jsCeilDiv1000_one_le {d : Int} (h : 1 ≤ d) : 1 ≤ jsCeilDiv1000 d := by
  unfold jsCeilDiv1000
  omega

theorem walkLevels_nan (acc : Int) (ls : List Level) :
    walkLevels none acc ls = none := by
  induction ls generalizing acc with
  | nil => rfl
  | cons lvl rest ih => simp [walkLevels, nanLt, ih]

theorem walkLevels_remaining_pos :
    ∀ (ls : List Level) (el : Option Int) (acc n r : Int),
      walkLevels el acc ls = some (n, r) → 1 ≤ r := by
  intro ls
  induction ls with
  | nil => intro el acc n r h; simp [walkLevels] at h
  | cons lvl rest ih =>
      intro el acc n r h
      simp only [walkLevels] at h
      split at h
      · rename_i hc
        cases el with
        | none => simp [nanLt] at hc
        | some e =>
            simp only [nanLt, decide_eq_true_eq] at hc
            simp only [Option.some.injEq, Prod.mk.injEq, Option.getD_some] at h
            obtain ⟨h1, h2⟩ := h
            subst h2
            exact jsCeilDiv1000_one_le (by omega)
      · exact ih el (acc + lvl.durationSeconds * 1000) n r h

theorem totalDurationMs_nonneg :
    ∀ ls : List Level, (∀ l ∈ ls, 0 ≤ l.durationSeconds) → 0 ≤ totalDurationMs ls := by
  intro ls
  induction ls with
  | nil => intro _; simp [totalDurationMs]
  | cons lvl rest ih =>
      intro hpos
      have h1 : 0 ≤ lvl.durationSeconds := hpos lvl (List.mem_cons_self lvl rest)

      have h2 : 0 ≤ totalDurationMs rest :=
        ih (fun l hl => hpos l (List.mem_cons_of_mem _ hl))
      simp only [totalDurationMs, List.map_cons, List.sum_cons]
      simp only [totalDurationMs] at h2
      nlinarith

theorem walkLevels_none_of_ge :
    ∀ (ls : List Level) (e acc : Int),
      (∀ l ∈ ls, 0 ≤ l.durationSeconds) → acc + totalDurationMs ls ≤ e →
      walkLevels (some e) acc ls = none := by
  intro ls
  induction ls with
  | nil => intro e acc _ _; rfl
  | cons lvl rest ih =>
      intro e acc hpos h
      have hrest : 0 ≤ totalDurationMs rest :=
        totalDurationMs_nonneg rest (fun l hl => hpos l (List.mem_cons_of_mem _ hl))
      have htot : totalDurationMs (lvl :: rest) =
          lvl.durationSeconds * 1000 + totalDurationMs rest := by
        simp [totalDurationMs]
      rw [htot] at h
      simp only [walkLevels]
      rw [if_neg]
      · exact ih e (acc + lvl.durationSeconds * 1000)
          (fun l hl => hpos l (List.mem_cons_of_mem _ hl)) (by omega)
      · simp only [nanLt, decide_eq_true_eq, not_lt]
        omega

theorem sortLevels_perm (ls : List Level) : List.Perm (sortLevels ls) ls :=
  List.perm_insertionSort _ ls

theorem sortLevels_length (ls : List Level) : (sortLevels ls).length = ls.length :=
  List.length_insertionSort _ ls

theorem sortLevels_eq_of_sorted {ls : List Level} (h : List.Sorted levelLE ls) :
    sortLevels ls = ls :=
  h.insertionSort_eq

theorem sortLevels_totalDurationMs (ls : List Level) :
    totalDurationMs (sortLevels ls) = totalDurationMs ls :=
  ((sortLevels_perm ls).map _).sum_eq

theorem sortLevels_mem {l : Level} {ls : List Level} : l ∈ sortLevels ls ↔ l ∈ ls :=
  List.mem_insertionSort _

theorem sortLevels_eq_nil {ls : List Level} : sortLevels ls = [] ↔ ls = [] := by
  constructor
  · intro h
    have := sortLevels_length ls
    rw [h] at this
    exact List.length_eq_zero.mp this.symm
  · intro h; subst h; rfl

theorem calculateState_timeRemaining_nonneg (fact : TimeFact) (now : Int)
    (levels : Option (List Level)) (st : DerivedState)
    (h : calculateState fact now levels = some st) : 0 ≤ st.timeRemaining := by
  unfold calculateState at h
  split at h
  · exact absurd h (by simp)
  · rcases hw : walkLevels (elapsedOf fact now) 0 (sortLevels (levels.getD [])) with _ | ⟨n, r⟩
    · rw [hw] at h
      simp only [Option.some.injEq] at h
      rw [← h]
    · rw [hw] at h
      simp only [Option.some.injEq] at h
      rw [← h]
      have := walkLevels_remaining_pos _ _ _ _ _ hw
      show (0 : Int) ≤ r
      omega

theorem mapGet_mapSet_self {α : Type} (m : List (String × α)) (k : String) (v : α) :
    mapGet (mapSet m k v) k = some v := by
  induction m with
  | nil => simp [mapSet, mapGet]
  | cons p rest ih =>
      obtain ⟨k₁, v₁⟩ := p
      by_cases h : k₁ = k
      · simp [mapSet, mapGet, h]
      · simp [mapSet, mapGet, h, ih]

theorem mapGet_mapDelete_self {α : Type} (m : List (String × α)) (k : String) :
    mapGet (mapDelete m k) k = none := by
  induction m with
  | nil => rfl
  | cons p rest ih =>
      obtain ⟨k₁, v₁⟩ := p
      simp only [mapDelete, List.filter_cons] at *
      by_cases h : k₁ = k
      · simpa [h] using ih
      · simpa [h, mapGet] using ih

/-!
Claim theorems.
-/

/-- C2: for the level list [(1,300s), (2,300s), (3,300s)], calculateState
reports level 1 with 300s remaining at elapsed 0s, level 2 with 300s at
elapsed 300s, level 3 with 1s at elapsed 899s, and finished with 0s
remaining at elapsed 900s: the walk returns the first level whose
cumulative end exceeds the elapsed time. -/
theorem calculateState_monotonic_progression :
    calculateState (TimeFact.at 0) 0 (some [⟨1, 300⟩, ⟨2, 300⟩, ⟨3, 300⟩]) =
      some ⟨false, 1, 300⟩ ∧
    calculateState (TimeFact.at 0) 300000 (some [⟨1, 300⟩, ⟨2, 300⟩, ⟨3, 300⟩]) =
      some ⟨false, 2, 300⟩ ∧
    calculateState (TimeFact.at 0) 899000 (some [⟨1, 300⟩, ⟨2, 300⟩, ⟨3, 300⟩]) =
      some ⟨false, 3, 1⟩ ∧
    calculateState (TimeFact.at 0) 900000 (some [⟨1, 300⟩, ⟨2, 300⟩, ⟨3, 300⟩]) =
      some ⟨true, 3, 0⟩ := by
  refine ⟨by decide, by decide, by decide, by decide⟩

/-- C4 counterexample: a non-empty but unparseable start string does not
make calculateState return null; the NaN elapsed time fails every level
comparison and the walk falls through to a finished result. -/
theorem calculateState_unparseable_not_null :
    calculateState TimeFact.unparseable 0 (some [⟨1, 300⟩]) = some ⟨true, 1, 0⟩ ∧
    calculateState TimeFact.unparseable 0 (some [⟨1, 300⟩]) ≠ none := by
  refine ⟨by decide, by decide⟩

/-- C4 amended: calculateState returns null exactly when the level list is
absent or empty or the start string is falsy; in those null cases the tick
is a no-op with no effects, no state change and no error surfaced (the
callback returns at the null check); a truthy but unparseable start string
instead yields a finished result (level count, or count plus one in the
part_000 variant, with zero remaining). -/
theorem calculateState_insufficient_data (fact : TimeFact) (now : Int)
    (levels : Option (List Level)) :
    ((levels = none ∨ levels = some [] ∨ fact = TimeFact.absent) →
        calculateState fact now levels = none ∧ calculateStateV0 fact now levels = none) ∧
    (∀ (tid : String) (active : ActiveRec) (st : SchedState),
        (active.levels = none ∨ active.levels = some [] ∨
            active.startTime = TimeFact.absent) →
        tickBody tid active now st = ([], st, active)) ∧
    (∀ ls : List Level, ls ≠ [] →
        calculateState TimeFact.unparseable now (some ls) =
          some ⟨true, Int.ofNat ls.length, 0⟩ ∧
        calculateStateV0 TimeFact.unparseable now (some ls) =
          some ⟨true, Int.ofNat ls.length + 1, 0⟩) := by
  refine ⟨?_, ?_, ?_⟩
  · intro h
    constructor
    · unfold calculateState
      rw [if_pos (by tauto)]
    · unfold calculateStateV0
      rw [if_pos (by tauto)]
  · intro tid active st hnull
    have hcalc : calculateState active.startTime now active.levels = none := by
      unfold calculateState
      rw [if_pos (by tauto)]
    unfold tickBody
    rw [hcalc]
  · intro ls hne
    have hguard : ¬ (TimeFact.unparseable = TimeFact.absent ∨
        (some ls : Option (List Level)) = none ∨ (some ls : Option (List Level)) = some []) := by
      simp [hne]
    have hwalk : walkLevels (elapsedOf TimeFact.unparseable now) 0 (sortLevels ls) = none :=
      walkLevels_nan 0 (sortLevels ls)
    have hwalk₀ : walkLevels (elapsedOfV0 TimeFact.unparseable now) 0 (sortLevels ls) = none :=
      walkLevels_nan 0 (sortLevels ls)
    constructor
    · unfold calculateState
      rw [if_neg hguard]
      simp only [Option.getD_some, hwalk, sortLevels_length]
    · unfold calculateStateV0
      rw [if_neg hguard]
      simp only [Option.getD_some, hwalk₀, sortLevels_length]

/-- C4 amended, witness: an absent start string yields null, the tick of a
record with an empty level list is a no-op on the empty process state, and
an unparseable start string yields the finished record on a concrete level
list. -/
theorem calculateState_insufficient_data_witness :
    (calculateState TimeFact.absent 0 (some [⟨1, 300⟩]) = none ∧
     calculateStateV0 TimeFact.absent 0 (some [⟨1, 300⟩]) = none) ∧
    tickBody "T1"
        { id := "T1", startTime := TimeFact.at 0, levels := some [],
          cachedCurrentLevel := 1, timerInterval := some 0 } 0 initialState =
      ([], initialState,
       { id := "T1", startTime := TimeFact.at 0, levels := some [],
         cachedCurrentLevel := 1, timerInterval := some 0 }) ∧
    (calculateState TimeFact.unparseable 0 (some [⟨1, 300⟩]) = some ⟨true, 1, 0⟩ ∧
     calculateStateV0 TimeFact.unparseable 0 (some [⟨1, 300⟩]) = some ⟨true, 2, 0⟩) :=
  ⟨(calculateState_insufficient_data TimeFact.absent 0 (some [⟨1, 300⟩])).1
      (Or.inr (Or.inr rfl)),
   (calculateState_insufficient_data TimeFact.absent 0 (some [⟨1, 300⟩])).2.1 "T1"
      { id := "T1", startTime := TimeFact.at 0, levels := some [],
        cachedCurrentLevel := 1, timerInterval := some 0 } initialState
      (Or.inr (Or.inl rfl)),
   (calculateState_insufficient_data TimeFact.absent 0 (some [⟨1, 300⟩])).2.2 [⟨1, 300⟩]
      (by decide)⟩

/-- C5 counterexample: for the single level numbered 5 with the clock past
its end, calculateState reports currentLevel 1 (the level count), which is
neither the last level number 5 nor count plus one. -/
theorem calculateState_finished_level_counterexample :
    calculateState (TimeFact.at 0) 2000 (some [⟨5, 1⟩]) = some ⟨true, 1, 0⟩ ∧
    (1 : Int) ≠ 5 ∧ (1 : Int) ≠ 1 + 1 := by
  refine ⟨by decide, by decide, by decide⟩

/-- C5 amended: for every non-empty level list with non-negative durations,
once the elapsed time reaches the total duration calculateState returns
finished with zero remaining and currentLevel equal to the number of
levels, while the part_000 variant returns the number of levels plus one;
these agree with the last level number (respectively plus one) only when
the level numbers are contiguous from 1. -/
theorem calculateState_finished_reports_count (ls : List Level) (t now : Int)
    (hne : ls ≠ []) (hpos : ∀ l ∈ ls, 0 ≤ l.durationSeconds)
    (hge : totalDurationMs ls ≤ now - t) :
    calculateState (TimeFact.at t) now (some ls) =
      some ⟨true, Int.ofNat ls.length, 0⟩ ∧
    calculateStateV0 (TimeFact.at t) now (some ls) =
      some ⟨true, Int.ofNat ls.length + 1, 0⟩ := by
  have htotal : 0 ≤ totalDurationMs ls := totalDurationMs_nonneg ls hpos
  have hguard : ¬ (TimeFact.at t = TimeFact.absent ∨
      (some ls : Option (List Level)) = none ∨ (some ls : Option (List Level)) = some []) := by
    simp [hne]
  have hposs : ∀ l ∈ sortLevels ls, 0 ≤ l.durationSeconds :=
    fun l hl => hpos l (sortLevels_mem.mp hl)
  have htots : totalDurationMs (sortLevels ls) = totalDurationMs ls :=
    sortLevels_totalDurationMs ls
  constructor
  · have hwalk : walkLevels (some (max 0 (now - t))) 0 (sortLevels ls) = none := by
      apply walkLevels_none_of_ge _ _ _ hposs
      omega
    unfold calculateState
    rw [if_neg hguard]
    simp only [Option.getD_some, elapsedOf, hwalk, sortLevels_length]
  · have hwalk : walkLevels (some (now - t)) 0 (sortLevels ls) = none := by
      apply walkLevels_none_of_ge _ _ _ hposs
      omega
    unfold calculateStateV0
    rw [if_neg hguard]
    simp only [Option.getD_some, elapsedOfV0, hwalk, sortLevels_length]

/-- C5 amended, witness: one level of one second, clock at two seconds. -/
theorem calculateState_finished_reports_count_witness :
    calculateState (TimeFact.at 0) 2000 (some [⟨1, 1⟩]) = some ⟨true, 1, 0⟩ ∧
    calculateStateV0 (TimeFact.at 0) 2000 (some [⟨1, 1⟩]) = some ⟨true, 2, 0⟩ :=
  calculateState_finished_reports_count [⟨1, 1⟩] 0 2000 (by decide)
    (by intro l hl; simp at hl; simp [hl]) (by decide)

/-- C8: every non-finished result of calculateState carries at least one
second remaining (ceiling rounding), and concretely 299.2 seconds into a
300-second level leaves exactly 1 second. -/
theorem calculateState_ceiling_rounding :
    (∀ (fact : TimeFact) (now : Int) (levels : Option (List Level)) (st : DerivedState),
        calculateState fact now levels = some st → st.finished = false →
        1 ≤ st.timeRemaining) ∧
    calculateState (TimeFact.at 0) 299200 (some [⟨1, 300⟩]) = some ⟨false, 1, 1⟩ := by
  constructor
  · intro fact now levels st h hfin
    unfold calculateState at h
    split at h
    · exact absurd h (by simp)
    · rcases hw : walkLevels (elapsedOf fact now) 0 (sortLevels (levels.getD []))
        with _ | ⟨n, r⟩
      · rw [hw] at h
        simp only [Option.some.injEq] at h
        rw [← h] at hfin
        simp at hfin
      · rw [hw] at h
        simp only [Option.some.injEq] at h
        rw [← h]
        exact walkLevels_remaining_pos _ _ _ _ _ hw
  · decide

/-- C8 witness: the general bound applied at 100 seconds into a single
300-second level, where 200 seconds remain. -/
theorem calculateState_ceiling_rounding_witness :
    calculateState (TimeFact.at 0) 100000 (some [⟨1, 300⟩]) = some ⟨false, 1, 200⟩ ∧
    (1 : Int) ≤ (200 : Int) :=
  ⟨by decide,
   calculateState_ceiling_rounding.1 (TimeFact.at 0) 100000 (some [⟨1, 300⟩])
     ⟨false, 1, 200⟩ (by decide) rfl⟩

/-- C9: a start instant in the future is clamped; calculateState behaves
exactly as with zero elapsed time, and no result ever carries a negative
remaining time. -/
theorem calculateState_negative_elapsed_clamp (t now : Int) (levels : Option (List Level))
    (h : now ≤ t) :
    calculateState (TimeFact.at t) now levels = calculateState (TimeFact.at 0) 0 levels ∧
    ∀ st : DerivedState, calculateState (TimeFact.at t) now levels = some st →
      0 ≤ st.timeRemaining := by
  constructor
  · have he : elapsedOf (TimeFact.at t) now = elapsedOf (TimeFact.at 0) 0 := by
      simp only [elapsedOf]
      congr 1
      omega
    unfold calculateState
    rw [he]
    simp only [show (TimeFact.at t = TimeFact.absent) = False by simp,
      show (TimeFact.at 0 = TimeFact.absent) = False by simp]
  · intro st hst
    exact calculateState_timeRemaining_nonneg _ _ _ _ hst

/-- C9 witness: a start instant 5 seconds in the future of a zero clock. -/
theorem calculateState_negative_elapsed_clamp_witness :
    calculateState (TimeFact.at 5000) 0 (some [⟨1, 300⟩]) =
      calculateState (TimeFact.at 0) 0 (some [⟨1, 300⟩]) ∧
    (0 : Int) ≤ 5000 :=
  ⟨(calculateState_negative_elapsed_clamp 5000 0 (some [⟨1, 300⟩]) (by decide)).1,
   by decide⟩

/-- C10 counterexample: the defensive sort is Array.prototype.sort, which
reorders the caller's levels array in place; with the levels given out of
order the array differs after the call. -/
theorem calculateState_mutates_unsorted_input :
    calculateStateLevelsAfter (TimeFact.at 0) (some [⟨2, 60⟩, ⟨1, 60⟩]) =
      some [⟨1, 60⟩, ⟨2, 60⟩] ∧
    calculateStateLevelsAfter (TimeFact.at 0) (some [⟨2, 60⟩, ⟨1, 60⟩]) ≠
      some [⟨2, 60⟩, ⟨1, 60⟩] := by
  refine ⟨by decide, by decide⟩

/-- C10 amended: the value of calculateState depends only on its arguments,
but the call leaves the caller's levels array holding a permutation of the
original elements (the in-place sorted order), which equals the original
exactly when the input was already sorted ascending by level number. -/
theorem calculateState_levels_after (fact : TimeFact) (levels : Option (List Level))
    (ls after : List Level) (hl : levels = some ls)
    (ha : calculateStateLevelsAfter fact levels = some after) :
    List.Perm after ls ∧ (List.Sorted levelLE ls → after = ls) := by
  subst hl
  unfold calculateStateLevelsAfter at ha
  split at ha
  · simp only [Option.some.injEq] at ha
    subst ha
    exact ⟨List.Perm.refl _, fun _ => rfl⟩
  · simp only [Option.getD_some, Option.some.injEq] at ha
    subst ha
    exact ⟨sortLevels_perm ls, fun hs => sortLevels_eq_of_sorted hs⟩

/-- C10 amended, witness: an already sorted two-level list is returned
unchanged. -/
theorem calculateState_levels_after_witness :
    List.Perm ([⟨1, 60⟩, ⟨2, 60⟩] : List Level) [⟨1, 60⟩, ⟨2, 60⟩] ∧
    (List.Sorted levelLE ([⟨1, 60⟩, ⟨2, 60⟩] : List Level) →
      ([⟨1, 60⟩, ⟨2, 60⟩] : List Level) = [⟨1, 60⟩, ⟨2, 60⟩]) :=
  calculateState_levels_after (TimeFact.at 0) (some [⟨1, 60⟩, ⟨2, 60⟩])
    [⟨1, 60⟩, ⟨2, 60⟩] [⟨1, 60⟩, ⟨2, 60⟩] rfl (by decide)

/-- The webhook body of a start command carrying injected internal state,
as C# sends it. -/
def startBody : WebhookBody :=
  { tournamentId := some "T1",
    event := some "tournament-control",
    data := some { type := some "start",
                   internalState := some { startTime := TimeFact.at 0,
                                           levels := some [⟨1, 300⟩],
                                           currentLevel := 1 } } }

/-- Process state after the first start webhook for T1. -/
def stateAfterFirstStart : SchedState :=
  (outcomeState (webhookEmit startBody initialState)).getD initialState

/-- Process state after the second, immediately following start webhook
for T1. -/
def stateAfterSecondStart : SchedState :=
  (outcomeState (webhookEmit startBody stateAfterFirstStart)).getD stateAfterFirstStart

/-- C1: two start webhooks for the same tournament leave two live periodic
tasks, because the second start replaces the registry record (with a null
interval handle) before runTournamentLoop runs, so the handle of the first
interval is lost and the first task is never cancelled: the at-most-one-
timer invariant fails and the first task keeps firing. -/
theorem webhook_double_start_leaks_timer :
    liveTimersFor "T1" stateAfterFirstStart = 1 ∧
    liveTimersFor "T1" stateAfterSecondStart = 2 ∧
    (0, "T1") ∈ stateAfterSecondStart.liveTimers ∧
    (1, "T1") ∈ stateAfterSecondStart.liveTimers := by
  refine ⟨by decide, by decide, by decide, by decide⟩

/-- A durable record whose status is the lowercase string running. -/
def tournamentLowercaseRunning : Tournament :=
  { id := "T1", name := "Main", startTime := TimeFact.at 0, status := "running",
    currentLevel := 1, levels := some [⟨1, 300⟩] }

/-- C3 counterexample: the recovery gate compares the durable status with
the strict equality status === Running, not case-insensitively: a record
whose status equals Running up to letter case, with a valid start time and
non-empty levels, is rejected and no scheduler is started. -/
theorem recovery_gate_case_sensitive :
    tournamentLowercaseRunning.status.data.map Char.toLower =
      "Running".data.map Char.toLower ∧
    tournamentLowercaseRunning.startTime ≠ TimeFact.absent ∧
    tournamentLowercaseRunning.levels = some [⟨1, 300⟩] ∧
    recoverActive (some tournamentLowercaseRunning) = none ∧
    joinTournament (some "T1") (some tournamentLowercaseRunning) 0 initialState =
      (initialState, [Effect.joinRoom "tournament:T1"]) := by
  refine ⟨by decide, by decide, by decide, by decide, by decide⟩

/-- C3 amended: with no record in the registry, recovery on a subscriber
join proceeds only if the durable record reports exactly the status
Running (case-sensitive comparison) with a truthy start time: a Paused
record leaves the state untouched and starts no scheduler, while a Running
record with a truthy start time seeds a registry record whose
cachedCurrentLevel is the durable current level and installs a live
periodic task for the identifier. -/
theorem recovery_gate (tid : String) (t : Tournament) (st : SchedState) (now : Int)
    (habs : mapGet st.activeTournaments tid = none) (hne : tid ≠ "") :
    (t.status = "Paused" →
        joinTournament (some tid) (some t) now st =
          (st, [Effect.joinRoom (tournamentRoom tid)])) ∧
    (t.status = "Running" → t.startTime ≠ TimeFact.absent →
        ∃ rec : ActiveRec,
          mapGet (joinTournament (some tid) (some t) now st).1.activeTournaments tid =
            some rec ∧
          rec.cachedCurrentLevel = t.currentLevel ∧
          rec.startTime = t.startTime ∧
          rec.timerInterval = some st.nextHandle ∧
          (st.nextHandle, tid) ∈ (joinTournament (some tid) (some t) now st).1.liveTimers) := by
  have htruthy : truthyStr (some tid) = true := by simp [truthyStr, hne]
  constructor
  · intro hp
    have hrec : recoverActive (some t) = none := by
      simp only [recoverActive]
      rw [if_neg]
      intro ⟨_, hr⟩
      rw [hp] at hr
      exact absurd hr (by decide)
    unfold joinTournament
    simp only [htruthy, not_true_eq_false, if_false, Option.getD_some, habs, hrec]
  · intro hr hst
    have hrec : recoverActive (some t) =
        some { id := t.id, startTime := t.startTime, levels := some (t.levels.getD []),
               cachedCurrentLevel := t.currentLevel, timerInterval := none } := by
      simp only [recoverActive]
      rw [if_pos ⟨hst, hr⟩]
    unfold joinTournament
    simp only [htruthy, not_true_eq_false, if_false, Option.getD_some, habs, hrec]
    set rec₀ : ActiveRec :=
      { id := t.id, startTime := t.startTime, levels := some (t.levels.getD []),
        cachedCurrentLevel := t.currentLevel, timerInterval := none } with hrec₀
    unfold runTournamentLoop
    rw [mapGet_mapSet_self]
    refine ⟨{ rec₀ with timerInterval := some st.nextHandle }, ?_, rfl, rfl, rfl, ?_⟩
    · exact mapGet_mapSet_self _ _ _
    · exact List.mem_append_right _ (List.mem_singleton.mpr rfl)

/-- A durable record with status Paused. -/
def tournamentPaused : Tournament :=
  { id := "T1", name := "Main", startTime := TimeFact.at 0, status := "Paused",
    currentLevel := 2, levels := some [⟨1, 300⟩, ⟨2, 300⟩] }

/-- A durable record with status Running. -/
def tournamentRunning : Tournament :=
  { id := "T1", name := "Main", startTime := TimeFact.at 0, status := "Running",
    currentLevel := 2, levels := some [⟨1, 300⟩, ⟨2, 300⟩] }

/-- C3 amended, witness: the gate applied to a concrete Paused record and
a concrete Running record against the empty state. -/
theorem recovery_gate_witness :
    joinTournament (some "T1") (some tournamentPaused) 0 initialState =
      (initialState, [Effect.joinRoom (tournamentRoom "T1")]) ∧
    (∃ rec : ActiveRec,
        mapGet (joinTournament (some "T1") (some tournamentRunning) 0
            initialState).1.activeTournaments "T1" = some rec ∧
        rec.cachedCurrentLevel = tournamentRunning.currentLevel ∧
        rec.startTime = tournamentRunning.startTime ∧
        rec.timerInterval = some initialState.nextHandle ∧
        (initialState.nextHandle, "T1") ∈
          (joinTournament (some "T1") (some tournamentRunning) 0
            initialState).1.liveTimers) :=
  ⟨(recovery_gate "T1" tournamentPaused initialState 0 rfl (by decide)).1 rfl,
   (recovery_gate "T1" tournamentRunning initialState 0 rfl (by decide)).2 rfl (by decide)⟩

/-- The record captured by a leaked periodic task for T1. -/
def orphanRec : ActiveRec :=
  { id := "T1", startTime := TimeFact.at 0, levels := some [⟨1, 300⟩],
    cachedCurrentLevel := 1, timerInterval := some 0 }

/-- A process state holding a live interval for T1 but no registry
record for it. -/
def orphanState : SchedState :=
  { activeTournaments := [], liveTimers := [(0, "T1")], nextHandle := 1 }

/-- C6 counterexample: the interval callback never consults the registry,
it recomputes from the record captured at installation; a tick that fires
for an identifier whose registry record is absent still publishes its
heartbeat and the task stays live rather than stopping itself. -/
theorem orphan_tick_still_emits :
    mapGet orphanState.activeTournaments "T1" = none ∧
    fireTick 0 "T1" orphanRec 0 orphanState =
      ([Effect.emitRoom "tournament:T1" "timer-sync" (Payload.timerSync 1 300 "Running")],
       orphanState, orphanRec) ∧
    (fireTick 0 "T1" orphanRec 0 orphanState).1 ≠ [] ∧
    (0, "T1") ∈ (fireTick 0 "T1" orphanRec 0 orphanState).2.1.liveTimers := by
  refine ⟨rfl, by decide, by decide, by decide⟩

/-- C6 amended: a tick runs on the record captured at start, not on a
registry lookup; the tick that observes a finished state clears its own
interval handle and deletes the registry record, so no later invocation of
that task fires and no further side effects occur. -/
theorem finished_tick_stops_task (tid : String) (active : ActiveRec) (now now₂ : Int)
    (st : SchedState) (s : DerivedState) (h : Nat)
    (hcalc : calculateState active.startTime now active.levels = some s)
    (hfin : s.finished = true) (hh : active.timerInterval = some h) :
    (∀ tid₂ : String, (h, tid₂) ∉ (tickBody tid active now st).2.1.liveTimers) ∧
    mapGet (tickBody tid active now st).2.1.activeTournaments tid = none ∧
    fireTick h tid (tickBody tid active now st).2.2 now₂ (tickBody tid active now st).2.1 =
      ([], (tickBody tid active now st).2.1, (tickBody tid active now st).2.2) := by
  have hbody : tickBody tid active now st =
      ([Effect.emitRoom (tournamentRoom tid) "tournament-control" Payload.finishCtl,
        Effect.patchExternal tid (Patch.status "Completed")],
       { st with
          liveTimers := clearIntervalOpt active.timerInterval st.liveTimers,
          activeTournaments := mapDelete st.activeTournaments tid },
       active) := by
    unfold tickBody
    rw [hcalc]
    simp only [hfin, if_true]
  have hnotin : ∀ tid₂ : String,
      (h, tid₂) ∉ clearIntervalOpt active.timerInterval st.liveTimers := by
    intro tid₂ hmem
    rw [hh] at hmem
    unfold clearIntervalOpt at hmem
    have := List.of_mem_filter hmem
    simp at this
  refine ⟨?_, ?_, ?_⟩
  · intro tid₂
    rw [hbody]
    exact hnotin tid₂
  · rw [hbody]
    exact mapGet_mapDelete_self _ _
  · rw [hbody]
    unfold fireTick
    rw [if_neg]
    intro hmem
    exact hnotin tid hmem

/-- A captured record whose single one-second level is over at two
seconds. -/
def finishedRec : ActiveRec :=
  { id := "T1", startTime := TimeFact.at 0, levels := some [⟨1, 1⟩],
    cachedCurrentLevel := 1, timerInterval := some 0 }

/-- A process state holding the live interval and registry record for the
finished tournament. -/
def finishedState : SchedState :=
  { activeTournaments := [("T1", finishedRec)], liveTimers := [(0, "T1")], nextHandle := 1 }

/-- C6 amended, witness: the finishing tick of the concrete one-level
tournament clears its task and deletes its record. -/
theorem finished_tick_stops_task_witness :
    (∀ tid₂ : String, (0, tid₂) ∉ (tickBody "T1" finishedRec 2000 finishedState).2.1.liveTimers) ∧
    mapGet (tickBody "T1" finishedRec 2000 finishedState).2.1.activeTournaments "T1" = none ∧
    fireTick 0 "T1" (tickBody "T1" finishedRec 2000 finishedState).2.2 3000
        (tickBody "T1" finishedRec 2000 finishedState).2.1 =
      ([], (tickBody "T1" finishedRec 2000 finishedState).2.1,
       (tickBody "T1" finishedRec 2000 finishedState).2.2) :=
  finished_tick_stops_task "T1" finishedRec 2000 3000 finishedState ⟨true, 1, 0⟩ 0
    (by decide) rfl rfl

/-- C7 counterexample: a control webhook that carries both required fields
but no data member is not logged and ignored: the handler broadcasts the
event and then throws a TypeError while reading data.type, so the request
is neither rejected early nor handled cleanly. -/
theorem webhook_missing_data_throws :
    webhookEmit { tournamentId := some "T1", event := some "tournament-control", data := none }
        initialState =
      WebhookOutcome.thrown
        [Effect.emitRoom "tournament:T1" "tournament-control" (Payload.raw none)]
        initialState := by
  decide

/-- C7 amended: a webhook request missing a truthy tournamentId or event is
rejected with 400 before any broadcast or state change; but a
tournament-control request carrying both required fields with an absent
data payload first broadcasts and then escapes the handler with a
TypeError (the process survives, yet the error is thrown, not logged and
ignored). -/
theorem webhook_validation :
    (∀ (body : WebhookBody) (st : SchedState),
        truthyStr body.tournamentId = false ∨ truthyStr body.event = false →
        webhookEmit body st = WebhookOutcome.badRequest) ∧
    (∀ (tid : String) (st : SchedState), tid ≠ "" →
        webhookEmit { tournamentId := some tid, event := some "tournament-control",
                      data := none } st =
          WebhookOutcome.thrown
            [Effect.emitRoom (tournamentRoom tid) "tournament-control" (Payload.raw none)]
            st) := by
  constructor
  · intro body st hfalse
    unfold webhookEmit
    rw [if_pos]
    intro ⟨h1, h2⟩
    rcases hfalse with h | h
    · rw [h] at h1; exact Bool.false_ne_true h1
    · rw [h] at h2; exact Bool.false_ne_true h2
  · intro tid st hne
    unfold webhookEmit
    rw [if_neg]
    · rfl
    · intro hcon
      exact hcon ⟨by simp [truthyStr, hne], by simp [truthyStr]⟩

/-- C7 amended, witness: a request with no tournamentId is rejected, and
the concrete dataless control request for T1 throws. -/
theorem webhook_validation_witness :
    webhookEmit { tournamentId := none, event := some "x", data := none } initialState =
      WebhookOutcome.badRequest ∧
    webhookEmit { tournamentId := some "T1", event := some "tournament-control", data := none }
        initialState =
      WebhookOutcome.thrown
        [Effect.emitRoom (tournamentRoom "T1") "tournament-control" (Payload.raw none)]
        initialState :=
  ⟨webhook_validation.1 { tournamentId := none, event := some "x", data := none }
      initialState (Or.inl rfl),
   webhook_validation.2 "T1" initialState (by decide)⟩

